import Mathlib

/-!
# Shopping-cart backend: shallow embedding and verification

This file embeds the core of the shopping-cart repository in Lean 4 and
proves/refutes the specification's claims about it.

Embedded source files:
* `validators.js` (`CartValidators`): `validateProductId`, `validateQuantity`,
  `validatePrice`, `validateProductName`, `validateCartItem`, `validateCartItems`.
* `server.js`: the request handlers for `GET /api/cart`, `POST /api/cart/add`,
  `PUT /api/cart/update`, `DELETE /api/cart/remove/:productId`,
  `DELETE /api/cart/clear` and `POST /api/cart/sync` (including the
  merge-on-sync algorithm built on a JavaScript `Map`).
* `database.js` (`CartDatabase.saveCart` / `getCart`): modelled as explicit
  state passing over a single cart row (`Option StoredCart`); the SQL upsert
  keeps `created_at` on conflict and recomputes `item_count` from the item list.
* `product-catalog.js` (`ProductCatalog`): the fixed in-memory catalog.

Modelling conventions:
* JavaScript numbers are modelled as rationals plus the non-finite values
  `NaN`, `Infinity`, `-Infinity` (`JsNum`); `Number(x)` on the modelled inputs
  is the identity, and inputs that would coerce to `NaN` are represented by
  `JsNum.nan`.  `Math.floor` is `Int.floor`, `Math.round` rounds half toward
  positive infinity, `Math.max` is `max`.
* A JSON field that may be absent or non-sensical is a `JsOpt` value
  (`undef` / `null` / present).  Fields whose code only distinguishes
  "string" from "non-string" use `JsPrim`, where `nonStr truthy` records the
  JavaScript truthiness of the non-string value (all the code does with such
  values is `!x` and `typeof x !== 'string'`).
* Fallible code returns `Except String`, carrying the error message the
  handler would send; `{ valid: false, error }` / `{ valid: true, sanitized }`
  objects become `Except.error` / `Except.ok`.
* The JavaScript `Map` used by the sync merge is an insertion-ordered
  association list: `set` on an existing key updates the value in place,
  `set` on a fresh key appends, matching `Map` iteration order.
* `String.length` counts characters rather than UTF-16 code units and
  `String.trim` uses Lean's whitespace predicate; the claims only exercise
  these on plain ASCII-like data where the two agree.
-/

/-- A JavaScript number: a finite value (a rational) or `NaN` / `±Infinity`. -/
inductive JsNum where
  | finite (q : ℚ)
  | nan
  | posInf
  | negInf
deriving DecidableEq, Repr

/-- A JavaScript value in a position where the code only distinguishes
strings from non-strings; `nonStr truthy` records the truthiness of the
non-string value. -/
inductive JsPrim where
  | str (s : String)
  | nonStr (truthy : Bool)
deriving DecidableEq, Repr

/-- A possibly-absent JSON field: JavaScript `undefined`, `null`, or a value. -/
inductive JsOpt (α : Type) where
  | undef
  | null
  | val (a : α)
deriving DecidableEq, Repr

deriving instance DecidableEq for Except

/-- `Except` result is an error. -/
def isErr {ε α : Type} : Except ε α → Bool
  | .error _ => true
  | .ok _ => false

/-- A normalized cart line item, as stored by the server.  `image = none` is
the JavaScript `null`; note `some ""` is distinct from `none`. -/
structure Item where
  productId : String
  name : String
  price : ℚ
  quantity : ℤ
  image : Option String
deriving DecidableEq, Repr

/-- JavaScript `String.prototype.trim()`: drop whitespace from both ends.
Defined over the character list (structurally) so that it evaluates inside
the kernel; extensionally it is Lean's `String.trim`. -/
def jsTrim (s : String) : String :=
  String.mk (((s.toList.dropWhile Char.isWhitespace).reverse.dropWhile
    Char.isWhitespace).reverse)

/-- `pat` is a prefix of the character list. -/
def charsStartWith : List Char → List Char → Bool
  | [], _ => true
  | _ :: _, [] => false
  | a :: as, b :: bs => a == b && charsStartWith as bs

/-- `pat` occurs as a contiguous run in the character list. -/
def charsContain (pat : List Char) : List Char → Bool
  | [] => charsStartWith pat []
  | b :: bs => charsStartWith pat (b :: bs) || charsContain pat bs

/-- Substring test used to model the regular-expression checks. -/
def strContains (s pat : String) : Bool :=
  charsContain pat.toList s.toList

/-- The denylist regex of `validateProductId`:
the character class (semicolon, apostrophe, double quote, backslash — written
via code points 59, 39, 34, 92), the substrings `--`, a slash-star open or
close comment, and the case-insensitive stored-procedure markers. -/
def hasDangerousPattern (s : String) : Bool :=
  s.toList.any (fun c =>
    c.toNat == 59 || c.toNat == 39 || c.toNat == 34 || c.toNat == 92)
  || strContains s "--" || strContains s "/*" || strContains s "*/"
  || (let l := String.mk (s.toList.map Char.toLower)
      strContains l "xp_" || strContains l "sp_")

/-- `CartValidators.validateProductId(productId, validProductIds)`.
A missing / null / non-string / empty-string input fails the
`!productId || typeof productId !== 'string'` guard (one shared message);
then the id is trimmed, checked non-empty, checked against the valid-id set
when supplied, length-bounded and checked against the denylist. -/
def validateProductId (productId : JsOpt JsPrim)
    (validProductIds : Option (List String)) : Except String String :=
  match productId with
  | .val (.str s) =>
    if s = "" then .error "Product ID must be a non-empty string"
    else
      let sanitizedId := jsTrim s
      if sanitizedId.length = 0 then .error "Product ID cannot be empty"
      else
        let memOk : Bool := match validProductIds with
          | some ids => decide (sanitizedId ∈ ids)
          | none => true
        if memOk = false then .error "Invalid product ID"
        else if sanitizedId.length > 100 then .error "Product ID exceeds maximum length"
        else if hasDangerousPattern sanitizedId then .error "Invalid characters in product ID"
        else .ok sanitizedId
  | _ => .error "Product ID must be a non-empty string"

/-- `CartValidators.validateQuantity(quantity, maxQuantity)`.  The source's
default `maxQuantity = 999` is passed explicitly at every call site.  The
final check `Math.floor(q) !== q` rejects non-integers; on success the
integer `Math.floor(q)` (equal to `q`) is returned. -/
def validateQuantity (quantity : JsOpt JsNum) (maxQuantity : ℚ) : Except String ℤ :=
  match quantity with
  | .undef => .error "Quantity is required"
  | .null => .error "Quantity is required"
  | .val .nan => .error "Quantity must be a valid number"
  | .val .posInf => .error "Quantity must be a valid number"
  | .val .negInf => .error "Quantity must be a valid number"
  | .val (.finite q) =>
    if q < 0 then .error "Quantity cannot be negative"
    else if q = 0 then .error "Quantity cannot be zero. Use remove endpoint to delete items"
    else if maxQuantity < q then .error ("Quantity cannot exceed " ++ toString maxQuantity)
    else if (⌊q⌋ : ℚ) ≠ q then .error "Quantity must be an integer"
    else .ok ⌊q⌋

/-- `Math.round(q * 100) / 100`: JavaScript `Math.round` rounds half toward
positive infinity, i.e. `Math.round(x) = ⌊x + 1/2⌋`.  For `q` with numerator
`n` and denominator `d`, the argument `q * 100 + 1/2` is `(200n + d) / (2d)`;
the definition is phrased with `mkRat` and integer arithmetic so that it
evaluates inside the kernel, and `jsRound2_eq` below restates it as the
source-level expression `⌊q * 100 + 1/2⌋ / 100`. -/
def jsRound2 (q : ℚ) : ℚ :=
  mkRat ⌊mkRat (200 * q.num + (q.den : ℤ)) (2 * q.den)⌋ 100

/-- `CartValidators.validatePrice(price)`. -/
def validatePrice (price : JsOpt JsNum) : Except String ℚ :=
  match price with
  | .undef => .error "Price is required"
  | .null => .error "Price is required"
  | .val .nan => .error "Price must be a valid number"
  | .val .posInf => .error "Price must be a valid number"
  | .val .negInf => .error "Price must be a valid number"
  | .val (.finite q) =>
    if q < 0 then .error "Price cannot be negative"
    else if 1000000 < q then .error "Price exceeds maximum allowed value"
    else .ok (jsRound2 q)

/-- `CartValidators.validateProductName(name)`. -/
def validateProductName (name : JsOpt JsPrim) : Except String String :=
  match name with
  | .val (.str s) =>
    if s = "" then .error "Product name must be a non-empty string"
    else
      let sanitized := jsTrim s
      if sanitized.length = 0 then .error "Product name cannot be empty"
      else if sanitized.length > 200 then .error "Product name exceeds maximum length"
      else .ok sanitized
  | _ => .error "Product name must be a non-empty string"

/-- The shared quantity-defaulting: both `validateCartItem`
(`item.quantity !== undefined ? item.quantity : 1`) and the add handler's
destructuring default `quantity = 1` replace only `undefined` by `1`
(`null` is kept and later rejected). -/
def quantityOrDefault (q : JsOpt JsNum) : JsOpt JsNum :=
  match q with
  | .undef => .val (.finite 1)
  | x => x

/-- A raw item object of a request body: every field may be absent or
malformed. -/
structure RawItem where
  productId : JsOpt JsPrim
  name : JsOpt JsPrim
  price : JsOpt JsNum
  quantity : JsOpt JsNum
  image : JsOpt JsPrim
deriving DecidableEq, Repr

/-- An element of a raw `items` array: an object or something failing the
`!item || typeof item !== 'object'` guard. -/
inductive RawElem where
  | obj (item : RawItem)
  | nonObj
deriving DecidableEq, Repr

/-- A raw `items` payload: an array or something failing `Array.isArray`. -/
inductive RawItems where
  | arr (l : List RawElem)
  | notArr
deriving DecidableEq, Repr

/-- The optional-image block of `validateCartItem`: absent/null becomes
`null`; a non-string or over-500-character value is an error; otherwise the
value is trimmed with the falsy empty string collapsed to `null`. -/
def validateImage (image : JsOpt JsPrim) : Except String (Option String) :=
  match image with
  | .undef => .ok none
  | .null => .ok none
  | .val (.nonStr _) => .error "Invalid image format"
  | .val (.str s) =>
    if s.length > 500 then .error "Invalid image format"
    else .ok (if jsTrim s = "" then none else some (jsTrim s))

/-- `CartValidators.validateCartItem(item, validProductIds)`: the four field
validators in source order, then the image block, producing the normalized
item; the first failure short-circuits with its message. -/
def validateCartItem (e : RawElem) (validProductIds : Option (List String)) :
    Except String Item :=
  match e with
  | .nonObj => .error "Cart item must be an object"
  | .obj item =>
    match validateProductId item.productId validProductIds with
    | .error e => .error e
    | .ok pid =>
      match validateProductName item.name with
      | .error e => .error e
      | .ok nm =>
        match validatePrice item.price with
        | .error e => .error e
        | .ok pr =>
          match validateQuantity (quantityOrDefault item.quantity) 999 with
          | .error e => .error e
          | .ok qty =>
            match validateImage item.image with
            | .error e => .error e
            | .ok img =>
              .ok { productId := pid, name := nm, price := pr, quantity := qty,
                    image := img }

/-- The indexed loop of `validateCartItems`: validate each element, report
the failing index, reject a `productId` already seen, and collect the
sanitized items in order. -/
def validateItemsLoop (validProductIds : Option (List String)) :
    List RawElem → ℕ → List String → Except String (List Item)
  | [], _, _ => .ok []
  | x :: xs, i, seen =>
    match validateCartItem x validProductIds with
    | .error e => .error ("Item at index " ++ toString i ++ ": " ++ e)
    | .ok item =>
      if item.productId ∈ seen then
        .error ("Duplicate product ID: " ++ item.productId)
      else
        match validateItemsLoop validProductIds xs (i + 1) (item.productId :: seen) with
        | .error e => .error e
        | .ok rest => .ok (item :: rest)

/-- `CartValidators.validateCartItems(items, validProductIds)`. -/
def validateCartItems (items : RawItems) (validProductIds : Option (List String)) :
    Except String (List Item) :=
  match items with
  | .notArr => .error "Items must be an array"
  | .arr l =>
    if l.length > 100 then .error "Cart cannot contain more than 100 items"
    else validateItemsLoop validProductIds l 0 []

/-- A catalog entry of `ProductCatalog`. -/
structure Product where
  productId : String
  name : String
  price : ℚ
  image : String
deriving DecidableEq, Repr

/-- The fixed in-memory catalog of `product-catalog.js`. -/
def products : List Product :=
  [ ⟨"1", "Laptop", 999.99, "💻"⟩,
    ⟨"2", "Smartphone", 699.99, "📱"⟩,
    ⟨"3", "Headphones", 199.99, "🎧"⟩,
    ⟨"4", "Keyboard", 149.99, "⌨️"⟩,
    ⟨"5", "Monitor", 299.99, "🖥️"⟩,
    ⟨"6", "Mouse", 49.99, "🖱️"⟩,
    ⟨"7", "Webcam", 79.99, "📹"⟩,
    ⟨"8", "Speaker", 129.99, "🔊"⟩ ]

/-- `ProductCatalog.getValidProductIds()`: the catalog's key set. -/
def getValidProductIds : List String := products.map (fun p => p.productId)

/-- A persisted cart row (`carts` table): the deserialized item list plus the
row metadata.  Timestamps are epoch milliseconds, modelled as `ℕ`. -/
structure StoredCart where
  items : List Item
  lastUpdated : ℕ
  createdAt : ℕ
  itemCount : ℕ
deriving DecidableEq, Repr

/-- The stored state for one cart identifier: `none` when no row exists. -/
abbrev CartState := Option StoredCart

/-- `CartDatabase.saveCart`: upsert at time `now`; `created_at` is preserved
on conflict and set to `now` on insert; `item_count` is recomputed from the
item list's length. -/
def saveCart (st : CartState) (now : ℕ) (cartData : List Item) : StoredCart :=
  { items := cartData,
    lastUpdated := now,
    createdAt := match st with | some c => c.createdAt | none => now,
    itemCount := cartData.length }

/-- The JSON body of a successful `GET /api/cart`.  `itemCount = none` means
the field is omitted from the response object. -/
structure CartResponse where
  items : List Item
  lastUpdated : Option ℕ
  itemCount : Option ℕ
deriving DecidableEq, Repr

/-- The `GET /api/cart` handler: an absent row yields
`{ items: [], lastUpdated: null }` (no `itemCount` key); an existing row
yields all three fields. -/
def getCartHandler (st : CartState) : CartResponse :=
  match st with
  | none => { items := [], lastUpdated := none, itemCount := none }
  | some cart =>
    { items := cart.items,
      lastUpdated := some cart.lastUpdated,
      itemCount := some cart.itemCount }

/-- JavaScript truthiness of the modelled field values. -/
def isTruthyPrim : JsOpt JsPrim → Bool
  | .val (.str s) => !(s == "")
  | .val (.nonStr t) => t
  | _ => false

/-- `x === undefined` on a numeric field. -/
def isUndefNum : JsOpt JsNum → Bool
  | .undef => true
  | _ => false

/-- The add handler's inline image expression
`image && typeof image === 'string' && image.length <= 500 ? image.trim() : null`:
anything falsy, non-string or over 500 characters silently becomes `null`;
note a whitespace-only string becomes the empty string, not `null`. -/
def addImage (image : JsOpt JsPrim) : Option String :=
  match image with
  | .val (.str s) => if s ≠ "" ∧ s.length ≤ 500 then some (jsTrim s) else none
  | _ => none

/-- `items.findIndex(i => i.productId === pid)` followed by reading the found
element: the first item with the given id. -/
def findFirst (pid : String) (items : List Item) : Option Item :=
  items.find? (fun i => i.productId == pid)

/-- `findIndex ≥ 0`: some item has the given id. -/
def containsPid (pid : String) (items : List Item) : Bool :=
  items.any (fun i => i.productId == pid)

/-- Assigning `items[idx].quantity` at the `findIndex` hit: update the first
item with the given id. -/
def setFirstQty (pid : String) (q : ℤ) : List Item → List Item
  | [] => []
  | i :: is =>
    if i.productId == pid then { i with quantity := q } :: is
    else i :: setFirstQty pid q is

/-- `items.splice(idx, 1)` at the `findIndex` hit: drop the first item with
the given id. -/
def removeFirst (pid : String) : List Item → List Item
  | [] => []
  | i :: is =>
    if i.productId == pid then is
    else i :: removeFirst pid is

/-- The `POST /api/cart/add` handler, from the missing-field guard to the
`saveCart` call.  Validation order follows the source: product id, quantity,
price, name; an existing item has the incoming quantity added and the sum
re-validated; otherwise the normalized item (with the inline image
expression) is appended. -/
def addHandler (validIds : List String) (st : CartState) (raw : RawItem)
    (now : ℕ) : Except String StoredCart :=
  if !isTruthyPrim raw.productId || !isTruthyPrim raw.name || isUndefNum raw.price then
    .error "Missing required fields: productId, name, price"
  else
    match validateProductId raw.productId (some validIds) with
    | .error e => .error e
    | .ok pid =>
      match validateQuantity (quantityOrDefault raw.quantity) 999 with
      | .error e => .error e
      | .ok qty =>
        match validatePrice raw.price with
        | .error e => .error e
        | .ok pr =>
          match validateProductName raw.name with
          | .error e => .error e
          | .ok nm =>
            let items := match st with | some c => c.items | none => []
            match findFirst pid items with
            | some existing =>
              match validateQuantity
                  (.val (.finite ((existing.quantity + qty : ℤ) : ℚ))) 999 with
              | .error e => .error e
              | .ok total => .ok (saveCart st now (setFirstQty pid total items))
            | none =>
              .ok (saveCart st now (items ++
                [{ productId := pid, name := nm, price := pr, quantity := qty,
                   image := addImage raw.image }]))

/-- The raw `quantity < 0` comparison of the update handler (performed on the
unvalidated value; `NaN < 0` is false). -/
def jsLtZeroNum : JsOpt JsNum → Bool
  | .val (.finite q) => decide (q < 0)
  | .val .negInf => true
  | _ => false

/-- The raw `quantity === 0` comparison of the update handler. -/
def jsEqZeroNum : JsOpt JsNum → Bool
  | .val (.finite q) => decide (q = 0)
  | _ => false

/-- The `PUT /api/cart/update` handler: missing-field guard, product-id
validation, the negative-quantity rejection, cart lookup (404 when absent),
item lookup (404 when absent), then either the splice (quantity 0) or the
validated quantity assignment, and the save. -/
def updateHandler (validIds : List String) (st : CartState)
    (productId : JsOpt JsPrim) (quantity : JsOpt JsNum) (now : ℕ) :
    Except String StoredCart :=
  if !isTruthyPrim productId || isUndefNum quantity then
    .error "Missing required fields: productId, quantity"
  else
    match validateProductId productId (some validIds) with
    | .error e => .error e
    | .ok pid =>
      if jsLtZeroNum quantity then .error "Quantity cannot be negative"
      else match st with
      | none => .error "Cart not found"
      | some cart =>
        if !containsPid pid cart.items then .error "Item not found in cart"
        else if jsEqZeroNum quantity then
          .ok (saveCart st now (removeFirst pid cart.items))
        else
          match validateQuantity quantity 999 with
          | .error e => .error e
          | .ok q => .ok (saveCart st now (setFirstQty pid q cart.items))

/-- The `DELETE /api/cart/remove/:productId` handler: the path parameter is
always a string; product-id validation, cart lookup (404 when absent), then
`filter` (all matches dropped) and the save. -/
def removeHandler (validIds : List String) (st : CartState)
    (productId : String) (now : ℕ) : Except String StoredCart :=
  match validateProductId (.val (.str productId)) (some validIds) with
  | .error e => .error e
  | .ok pid =>
    match st with
    | none => .error "Cart not found"
    | some cart =>
      .ok (saveCart st now (cart.items.filter (fun i => !(i.productId == pid))))

/-- The `DELETE /api/cart/clear` handler: save the empty list. -/
def clearHandler (st : CartState) (now : ℕ) : Except String StoredCart :=
  .ok (saveCart st now [])

/-- `Map.set` on an insertion-ordered association list: an existing key keeps
its position and gets the new value; a fresh key is appended. -/
def mapSet (m : List (String × Item)) (k : String) (v : Item) :
    List (String × Item) :=
  if m.any (fun p => p.1 == k) then
    m.map (fun p => if p.1 == k then (k, v) else p)
  else m ++ [(k, v)]

/-- `Map.get`. -/
def mapGet (m : List (String × Item)) (k : String) : Option Item :=
  (m.find? (fun p => p.1 == k)).map (fun p => p.2)

/-- One step of the client-item merge loop of the sync handler: an existing
entry keeps its data with the quantity raised to the maximum, a fresh client
item is inserted as-is. -/
def mergeStep (m : List (String × Item)) (clientItem : Item) :
    List (String × Item) :=
  match mapGet m clientItem.productId with
  | some existing =>
    mapSet m clientItem.productId
      { existing with quantity := max existing.quantity clientItem.quantity }
  | none => mapSet m clientItem.productId clientItem

/-- The merge algorithm of `POST /api/cart/sync`: server items are loaded
into the map first (copied), client items are merged with
`Math.max` on quantity, and `Array.from(map.values())` reads the result in
insertion order. -/
def mergeSync (serverItems clientItems : List Item) : List Item :=
  (clientItems.foldl mergeStep
    (serverItems.foldl (fun m i => mapSet m i.productId i) [])).map
    (fun p => p.2)

/-- The `POST /api/cart/sync` handler: validate the whole payload first
(short-circuiting before any store access), then merge with the server cart
and save. -/
def syncHandler (validIds : List String) (st : CartState) (raw : RawItems)
    (now : ℕ) : Except String StoredCart :=
  match validateCartItems raw (some validIds) with
  | .error e => .error e
  | .ok sanitized =>
    let serverItems := match st with | some c => c.items | none => []
    .ok (saveCart st now (mergeSync serverItems sanitized))

/-- One logical cart operation with its request payload. -/
inductive Op where
  | add (raw : RawItem)
  | update (productId : JsOpt JsPrim) (quantity : JsOpt JsNum)
  | remove (productId : String)
  | clear
  | sync (raw : RawItems)

/-- The stored state after a handler ran: an error response leaves the row
untouched (no handler saves before reaching its single `saveCart` call). -/
def stepSt (st : CartState) (r : Except String StoredCart) : CartState :=
  match r with
  | .ok c => some c
  | .error _ => st

/-- Apply one operation at time `now` to the stored state of a cart. -/
def applyOp (validIds : List String) (now : ℕ) (st : CartState) : Op → CartState
  | .add raw => stepSt st (addHandler validIds st raw now)
  | .update p q => stepSt st (updateHandler validIds st p q now)
  | .remove p => stepSt st (removeHandler validIds st p now)
  | .clear => stepSt st (clearHandler st now)
  | .sync raw => stepSt st (syncHandler validIds st raw now)

/-- Apply a timed sequence of operations. -/
def applyOps (validIds : List String) (st : CartState) (ops : List (ℕ × Op)) :
    CartState :=
  ops.foldl (fun s p => applyOp validIds p.1 s p.2) st

/-- The product ids of an item list, in order. -/
def pids (items : List Item) : List String :=
  items.map (fun i => i.productId)

/-- The cart-row invariant: the cached `item_count` matches the item list and
no two items share a product id. -/
def CartInv : CartState → Prop
  | none => True
  | some c => c.itemCount = c.items.length ∧ (pids c.items).Nodup

/-! ### Concrete fixtures used by witnesses and counterexamples -/

/-- A well-formed raw add/sync payload for catalog product `1`. -/
def rawLaptop : RawItem :=
  { productId := .val (.str "1"), name := .val (.str "Laptop"),
    price := .val (.finite 10), quantity := .val (.finite 2), image := .undef }

/-- The same payload with a non-string `image` field (for example a number). -/
def rawBadImage : RawItem :=
  { rawLaptop with image := .val (.nonStr true) }

/-- The normalized line item produced for `rawLaptop`. -/
def laptopItem : Item :=
  { productId := "1", name := "Laptop", price := 10, quantity := 2, image := none }

/-- A stored line item for catalog product `2`. -/
def phoneItem : Item :=
  { productId := "2", name := "Smartphone", price := 5, quantity := 1, image := none }

/-- A stored cart holding only `phoneItem`. -/
def cartPhone : StoredCart :=
  { items := [phoneItem], lastUpdated := 5, createdAt := 2, itemCount := 1 }

/-- A server-side line item for product `1` with quantity 5. -/
def serverLaptop5 : Item :=
  { productId := "1", name := "X", price := 3, quantity := 5, image := none }

/-- A raw sync payload item for catalog product `2`. -/
def rawPhone : RawItem :=
  { productId := .val (.str "2"), name := .val (.str "Smartphone"),
    price := .val (.finite 5), quantity := .val (.finite 1), image := .undef }

/-- A stored cart holding `laptopItem` and `phoneItem`. -/
def cartBoth : StoredCart :=
  { items := [laptopItem, phoneItem], lastUpdated := 5, createdAt := 2, itemCount := 2 }

/-- Well-formedness of the merge map: keys are pairwise distinct and every
stored item carries its own key as product id.  Both facts hold for every
map built by the merge loop. -/
def KeysOk (m : List (String × Item)) : Prop :=
  (m.map Prod.fst).Nodup ∧ ∀ p ∈ m, p.2.productId = p.1

/-- The image inputs on which the add handler's inline image expression and
`validateCartItem`'s image block agree: an absent image, or a string of at
most 500 characters that is empty or trims to something non-empty.  (A
non-string image and an over-500-character string are coerced to `null` by
add but rejected by sync; a whitespace-only string becomes `""` in add and
`null` in sync.) -/
def goodImage : JsOpt JsPrim → Prop
  | .undef => True
  | .null => True
  | .val (.str s) => s.length ≤ 500 ∧ (s = "" ∨ jsTrim s ≠ "")
  | .val (.nonStr _) => False

/-! ## Basic lemmas about the embedded definitions -/

/-- Sanity: the kernel-computable `jsRound2` is the source expression
`Math.round(q * 100) / 100` with round-half-up. -/
theorem jsRound2_eq (q : ℚ) : jsRound2 q = (⌊q * 100 + 1/2⌋ : ℚ) / 100 := by
  have hd : (q.den : ℚ) ≠ 0 := by
    exact_mod_cast q.den_nz
  have harg : (mkRat (200 * q.num + (q.den : ℤ)) (2 * q.den) : ℚ) =
      q * 100 + 1/2 := by
    rw [Rat.mkRat_eq_div]
    push_cast
    rw [div_eq_iff (by positivity)]
    have hq : (q.num : ℚ) = q * q.den := by
      have h := Rat.num_div_den q
      rw [div_eq_iff hd] at h
      exact h
    rw [hq]
    ring
  unfold jsRound2
  rw [harg, Rat.mkRat_eq_div]
  norm_num

/-- An `ok` result of `validateProductId` comes from a non-empty string
input. -/
theorem validateProductId_ok_shape {x : JsOpt JsPrim}
    {ids : Option (List String)} {y : String}
    (h : validateProductId x ids = .ok y) :
    ∃ s, x = .val (.str s) ∧ s ≠ "" := by
  cases x with
  | undef => simp [validateProductId] at h
  | null => simp [validateProductId] at h
  | val p =>
    cases p with
    | nonStr t => simp [validateProductId] at h
    | str s =>
      refine ⟨s, rfl, ?_⟩
      intro hs
      subst hs
      simp [validateProductId] at h

/-- `findIndex ≥ 0` is membership of the product id. -/
theorem containsPid_iff (pid : String) (l : List Item) :
    containsPid pid l = true ↔ pid ∈ pids l := by
  simp only [containsPid, List.any_eq_true, beq_iff_eq, pids, List.mem_map]

/-- `filter` keeps everything when the id is absent. -/
theorem filter_eq_self_of_not_mem {pid : String} {l : List Item}
    (h : pid ∉ pids l) :
    l.filter (fun i => !(i.productId == pid)) = l := by
  induction l with
  | nil => rfl
  | cons a t ih =>
    have ha : a.productId ≠ pid := by
      intro he
      exact h (by simp [pids, he])
    have ht : pid ∉ pids t := fun hm => h (by simp [pids] at hm ⊢; tauto)
    have hb : (!(a.productId == pid)) = true := by simp [ha]
    simp only [List.filter_cons, hb, if_true]
    rw [ih ht]

/-- Removing the first occurrence of `pid` from a duplicate-free list leaves
no item with that id. -/
theorem removeFirst_not_mem {pid : String} {l : List Item}
    (hnd : (pids l).Nodup) : pid ∉ pids (removeFirst pid l) := by
  induction l with
  | nil => simp [removeFirst, pids]
  | cons a t ih =>
    simp only [pids, List.map_cons, List.nodup_cons] at hnd
    by_cases ha : a.productId = pid
    · rw [removeFirst, if_pos (by simp [ha])]
      rw [← ha]
      exact hnd.1
    · rw [removeFirst, if_neg (by simp [ha])]
      intro hm
      simp only [pids, List.map_cons, List.mem_cons] at hm
      rcases hm with hm | hm
      · exact ha hm.symm
      · exact ih hnd.2 hm

/-- `setFirstQty` does not change the sequence of product ids. -/
theorem pids_setFirstQty (pid : String) (q : ℤ) (l : List Item) :
    pids (setFirstQty pid q l) = pids l := by
  induction l with
  | nil => rfl
  | cons a t ih =>
    by_cases ha : a.productId = pid
    · simp [setFirstQty, ha, pids]
    · simp [setFirstQty, ha, pids] at ih ⊢
      exact ih

/-! ## C6: `validateQuantity` accepts exactly the integers 1..999 -/

/-- C6: for every integer `q` with `1 ≤ q ≤ 999`, `validateQuantity` succeeds
and returns `q`; an absent (`undefined`/`null`), non-numeric (`NaN`),
non-finite, zero, negative, non-integer or over-999 quantity fails. -/
theorem validateQuantity_range_spec :
    (∀ q : ℤ, 1 ≤ q → q ≤ 999 →
      validateQuantity (.val (.finite (q : ℚ))) 999 = .ok q) ∧
    isErr (validateQuantity .undef 999) = true ∧
    isErr (validateQuantity .null 999) = true ∧
    isErr (validateQuantity (.val .nan) 999) = true ∧
    isErr (validateQuantity (.val .posInf) 999) = true ∧
    isErr (validateQuantity (.val .negInf) 999) = true ∧
    (∀ q : ℚ, q ≤ 0 ∨ 999 < q ∨ (⌊q⌋ : ℚ) ≠ q →
      isErr (validateQuantity (.val (.finite q)) 999) = true) := by
  refine ⟨?_, rfl, rfl, rfl, rfl, rfl, ?_⟩
  · intro q h1 h2
    have h0 : ¬((q : ℚ) < 0) := by
      rw [not_lt]
      exact_mod_cast (by omega : (0 : ℤ) ≤ q)
    have hz : ¬((q : ℚ) = 0) := by
      exact_mod_cast (by omega : ¬(q = (0 : ℤ)))
    have hm : ¬((999 : ℚ) < (q : ℚ)) := by
      rw [not_lt]
      exact_mod_cast h2
    have hf : ¬((⌊(q : ℚ)⌋ : ℚ) ≠ (q : ℚ)) := by
      simp [Int.floor_intCast]
    simp only [validateQuantity, if_neg h0, if_neg hz, if_neg hm, if_neg hf]
    simp [Int.floor_intCast]
  · intro q h
    simp only [validateQuantity]
    split_ifs with h1 h2 h3 h4
    · rfl
    · rfl
    · rfl
    · rfl
    · exfalso
      rcases h with h | h | h
      · rcases lt_or_eq_of_le h with h' | h'
        · exact h1 h'
        · exact h2 h'
      · exact h3 h
      · exact h4 h

/-- C6 witness: the theorem applied at the concrete quantities `3` and `5/2`. -/
theorem validateQuantity_range_spec_witness :
    validateQuantity (.val (.finite ((3 : ℤ) : ℚ))) 999 = .ok 3 ∧
    isErr (validateQuantity (.val (.finite (mkRat 5 2))) 999) = true :=
  ⟨validateQuantity_range_spec.1 3 (by decide) (by decide),
   validateQuantity_range_spec.2.2.2.2.2.2 (mkRat 5 2)
     (Or.inr (Or.inr (by decide)))⟩

/-! ## C10: reading an absent cart is a success without `itemCount` -/

/-- C10: `GET /api/cart` on an absent cart succeeds with an empty item list,
`lastUpdated` null and the `itemCount` field omitted, while an existing cart's
response carries all three fields. -/
theorem getCart_absent_response :
    getCartHandler none = { items := [], lastUpdated := none, itemCount := none } ∧
    ∀ cart, getCartHandler (some cart) =
      { items := cart.items, lastUpdated := some cart.lastUpdated,
        itemCount := some cart.itemCount } :=
  ⟨rfl, fun _ => rfl⟩

/-! ## C5: sync validation failures leave the stored cart untouched -/

/-- C5: whenever `validateCartItems` rejects the sync payload (non-array,
over 100 items, an invalid item, or a repeated product id), the sync handler
returns an error and the stored cart state is unchanged — validation runs
before any store access, so no partial write occurs.  A non-array payload and
an over-100-element payload are rejected. -/
theorem sync_validation_atomic (validIds : List String) (st : CartState)
    (raw : RawItems) (now : ℕ)
    (h : isErr (validateCartItems raw (some validIds)) = true) :
    applyOp validIds now st (.sync raw) = st ∧
    isErr (syncHandler validIds st raw now) = true ∧
    isErr (validateCartItems .notArr (some validIds)) = true ∧
    (∀ l : List RawElem, 100 < l.length →
      isErr (validateCartItems (.arr l) (some validIds)) = true) := by
  obtain ⟨e, he⟩ : ∃ e, validateCartItems raw (some validIds) = .error e := by
    cases hv : validateCartItems raw (some validIds) with
    | error e => exact ⟨e, rfl⟩
    | ok l => rw [hv] at h; simp [isErr] at h
  have hs : syncHandler validIds st raw now = .error e := by
    unfold syncHandler
    rw [he]
  refine ⟨?_, ?_, rfl, ?_⟩
  · simp [applyOp, stepSt, hs]
  · simp [isErr, hs]
  · intro l hl
    simp only [validateCartItems]
    rw [if_pos hl]
    rfl

/-- C5 witness: a payload repeating product id `1` is rejected and a stored
cart is left untouched. -/
theorem sync_validation_atomic_witness :
    applyOp getValidProductIds 7 (some cartPhone)
      (.sync (.arr [.obj rawLaptop, .obj rawLaptop])) = some cartPhone ∧
    isErr (syncHandler getValidProductIds (some cartPhone)
      (.arr [.obj rawLaptop, .obj rawLaptop]) 7) = true ∧
    isErr (validateCartItems .notArr (some getValidProductIds)) = true ∧
    (∀ l : List RawElem, 100 < l.length →
      isErr (validateCartItems (.arr l) (some getValidProductIds)) = true) :=
  sync_validation_atomic getValidProductIds (some cartPhone)
    (.arr [.obj rawLaptop, .obj rawLaptop]) 7 (by decide)

/-! ## C8: behaviour of `remove` -/

/-- C8 counterexample: product id `1` passes validation, yet `remove` on an
absent cart is an error (`404 Cart not found`), contradicting the claim that
remove always succeeds as a no-op when no matching item is present and that
its only error condition is an invalid product id. -/
theorem remove_absent_cart_cex :
    validateProductId (.val (.str "1")) (some getValidProductIds) = .ok "1" ∧
    removeHandler getValidProductIds none "1" 0 = .error "Cart not found" :=
  ⟨by decide, by decide⟩

/-- C8 amended: when the product id passes validation and the cart exists,
`remove` succeeds and is a no-op on the item list when no matching item is
present; on an absent cart it fails with `Cart not found` and changes
nothing. -/
theorem remove_noop_spec (validIds : List String) (cart : StoredCart)
    (pid : String) (now : ℕ)
    (hv : validateProductId (.val (.str pid)) (some validIds) = .ok pid)
    (habs : pid ∉ pids cart.items) :
    (∃ c', removeHandler validIds (some cart) pid now = .ok c' ∧
      c'.items = cart.items) ∧
    removeHandler validIds none pid now = .error "Cart not found" ∧
    applyOp validIds now none (.remove pid) = none := by
  have h2 : removeHandler validIds none pid now = .error "Cart not found" := by
    unfold removeHandler
    rw [hv]
  refine ⟨⟨saveCart (some cart) now cart.items, ?_, rfl⟩, h2, ?_⟩
  · unfold removeHandler
    rw [hv]
    show Except.ok (saveCart (some cart) now
      (cart.items.filter (fun i => !(i.productId == pid)))) = _
    rw [filter_eq_self_of_not_mem habs]
  · simp [applyOp, stepSt, h2]

/-- C8 amended witness: removing catalog product `1` from a cart that only
holds product `2`. -/
theorem remove_noop_spec_witness :
    (∃ c', removeHandler getValidProductIds (some cartPhone) "1" 7 = .ok c' ∧
      c'.items = cartPhone.items) ∧
    removeHandler getValidProductIds none "1" 7 = .error "Cart not found" ∧
    applyOp getValidProductIds 7 none (.remove "1") = none :=
  remove_noop_spec getValidProductIds cartPhone "1" 7 (by decide) (by decide)

/-! ## C7: `update` with quantity 0 removes; negative quantity is rejected -/

/-- C7: on a duplicate-free cart containing the product, `update` with
quantity `0` succeeds and the saved cart — as returned by a subsequent
`GET /api/cart` — no longer lists that product id; `update` with any negative
quantity is rejected with an error and the stored cart is unchanged. -/
theorem update_zero_removes (validIds : List String) (cart : StoredCart)
    (pid : String) (now : ℕ)
    (hnd : (pids cart.items).Nodup)
    (hv : validateProductId (.val (.str pid)) (some validIds) = .ok pid)
    (hm : pid ∈ pids cart.items) :
    (∃ c', updateHandler validIds (some cart) (.val (.str pid))
        (.val (.finite 0)) now = .ok c' ∧
      pid ∉ pids (getCartHandler (some c')).items) ∧
    (∀ q : ℚ, q < 0 →
      updateHandler validIds (some cart) (.val (.str pid))
          (.val (.finite q)) now = .error "Quantity cannot be negative" ∧
      applyOp validIds now (some cart)
          (.update (.val (.str pid)) (.val (.finite q))) = some cart) := by
  obtain ⟨s, hs, hne⟩ := validateProductId_ok_shape hv
  have hspid : s = pid := by
    cases hs
    rfl
  subst hspid
  have ht : isTruthyPrim (.val (.str s)) = true := by
    simp [isTruthyPrim, hne]
  have hcontains : containsPid s cart.items = true :=
    (containsPid_iff s cart.items).2 hm
  constructor
  · refine ⟨saveCart (some cart) now (removeFirst s cart.items), ?_, ?_⟩
    · simp [updateHandler, hv, ht, isUndefNum, jsLtZeroNum, jsEqZeroNum,
        hcontains]
    · show s ∉ pids (removeFirst s cart.items)
      exact removeFirst_not_mem hnd
  · intro q hq
    have herr : updateHandler validIds (some cart) (.val (.str s))
        (.val (.finite q)) now = .error "Quantity cannot be negative" := by
      simp [updateHandler, hv, ht, isUndefNum, jsLtZeroNum, hq]
    exact ⟨herr, by simp [applyOp, stepSt, herr]⟩

/-- C7 witness: updating product `1` to quantity 0 on a two-item cart, and
rejecting quantity `-3`. -/
theorem update_zero_removes_witness :
    (∃ c', updateHandler getValidProductIds (some cartBoth) (.val (.str "1"))
        (.val (.finite 0)) 9 = .ok c' ∧
      "1" ∉ pids (getCartHandler (some c')).items) ∧
    (∀ q : ℚ, q < 0 →
      updateHandler getValidProductIds (some cartBoth) (.val (.str "1"))
          (.val (.finite q)) 9 = .error "Quantity cannot be negative" ∧
      applyOp getValidProductIds 9 (some cartBoth)
          (.update (.val (.str "1")) (.val (.finite q))) = some cartBoth) :=
  update_zero_removes getValidProductIds cartBoth "1" 9
    (by decide) (by decide) (by decide)

/-! ## C3: `add` is not idempotent -/

/-- C3 counterexample: issuing the same `add` (product `1`, quantity 2) twice
on an empty cart stores quantity 4, not the state a single `add` leaves, so
"every cart operation is idempotent" fails for `add`. -/
theorem add_not_idempotent_cex :
    applyOp getValidProductIds 0
        (applyOp getValidProductIds 0 none (.add rawLaptop)) (.add rawLaptop) ≠
      applyOp getValidProductIds 0 none (.add rawLaptop) := by
  decide

/-! ## C9: add and sync do not validate the image field identically -/

/-- C9 counterexample: an item for catalog product `1` whose `image` is a
non-string value is accepted by `POST /api/cart/add` (the image silently
becomes `null`) but rejected by `POST /api/cart/sync` via `validateCartItem`,
so the two entry points do not accept the same items. -/
theorem add_sync_image_divergence_cex :
    isErr (addHandler getValidProductIds none rawBadImage 0) = false ∧
    isErr (syncHandler getValidProductIds none (.arr [.obj rawBadImage]) 0) = true ∧
    validateCartItem (.obj rawBadImage) (some getValidProductIds) =
      .error "Invalid image format" :=
  ⟨by decide, by decide, by decide⟩


/-! ## Lemmas about the merge map -/

theorem mapSet_cons_miss {a : String × Item} {t : List (String × Item)}
    {k : String} {v : Item} (h : (a.1 == k) = false) :
    mapSet (a :: t) k v = a :: mapSet t k v := by
  have hne : ¬ a.1 = k := by simpa using h
  unfold mapSet
  simp only [List.any_cons, h, Bool.false_or]
  by_cases hany : t.any (fun p => p.1 == k) = true
  · simp [hany, h, hne]
  · simp only [Bool.not_eq_true] at hany
    simp [hany, h]

theorem mapSet_cons_hit {a : String × Item} {t : List (String × Item)}
    {k : String} {v : Item} (h : (a.1 == k) = true) :
    mapSet (a :: t) k v =
      (k, v) :: t.map (fun p => if p.1 == k then (k, v) else p) := by
  have hk : a.1 = k := by simpa using h
  unfold mapSet
  simp [List.any_cons, h, hk]

theorem mapSet_append_of_not_any {m : List (String × Item)} {k : String}
    {v : Item} (h : m.any (fun p => p.1 == k) = false) :
    mapSet m k v = m ++ [(k, v)] := by
  unfold mapSet
  simp [h]

theorem mapGet_nil (k : String) : mapGet [] k = none := rfl

theorem mapGet_cons_hit {a : String × Item} {t : List (String × Item)}
    {k : String} (h : (a.1 == k) = true) :
    mapGet (a :: t) k = some a.2 := by
  simp [mapGet, List.find?_cons, h]

theorem mapGet_cons_miss {a : String × Item} {t : List (String × Item)}
    {k : String} (h : (a.1 == k) = false) :
    mapGet (a :: t) k = mapGet t k := by
  simp [mapGet, List.find?_cons, h]

theorem mapGet_mapSet_self (m : List (String × Item)) (k : String) (v : Item) :
    mapGet (mapSet m k v) k = some v := by
  induction m with
  | nil =>
    simp [mapSet, mapGet]
  | cons a t ih =>
    by_cases ha : (a.1 == k) = true
    · rw [mapSet_cons_hit ha, mapGet_cons_hit (by simp)]
    · rw [Bool.not_eq_true] at ha
      rw [mapSet_cons_miss ha, mapGet_cons_miss ha]
      exact ih

theorem mapGet_map_update_ne {m : List (String × Item)} {k k' : String}
    {v : Item} (h : k ≠ k') :
    mapGet (m.map (fun p => if p.1 == k' then (k', v) else p)) k = mapGet m k := by
  induction m with
  | nil => rfl
  | cons a t ih =>
    by_cases ha : (a.1 == k') = true
    · have hk : a.1 = k' := by simpa using ha
      rw [List.map_cons, if_pos ha]
      rw [mapGet_cons_miss (by simp [Ne.symm h]), mapGet_cons_miss (by simp [hk, Ne.symm h])]
      exact ih
    · rw [Bool.not_eq_true] at ha
      rw [List.map_cons, if_neg (by simp [ha])]
      by_cases hak : (a.1 == k) = true
      · rw [mapGet_cons_hit hak, mapGet_cons_hit hak]
      · rw [Bool.not_eq_true] at hak
        rw [mapGet_cons_miss hak, mapGet_cons_miss hak]
        exact ih

theorem mapGet_mapSet_ne {m : List (String × Item)} {k k' : String} {v : Item}
    (h : k ≠ k') :
    mapGet (mapSet m k' v) k = mapGet m k := by
  unfold mapSet
  by_cases hany : m.any (fun p => p.1 == k') = true
  · rw [if_pos hany]
    exact mapGet_map_update_ne h
  · rw [Bool.not_eq_true] at hany
    rw [if_neg (by simp [hany])]
    induction m with
    | nil => simp [mapGet, List.find?_cons, Ne.symm h]
    | cons a t ih =>
      simp only [List.any_cons, Bool.or_eq_false_iff] at hany
      by_cases hak : (a.1 == k) = true
      · rw [List.cons_append, mapGet_cons_hit hak, mapGet_cons_hit hak]
      · rw [Bool.not_eq_true] at hak
        rw [List.cons_append, mapGet_cons_miss hak, mapGet_cons_miss hak]
        exact ih hany.2

theorem mapGet_mem_values {m : List (String × Item)} {k : String} {v : Item}
    (h : mapGet m k = some v) : v ∈ m.map (fun p => p.2) := by
  unfold mapGet at h
  cases hf : m.find? (fun p => p.1 == k) with
  | none => rw [hf] at h; simp at h
  | some p =>
    rw [hf] at h
    have hm := List.mem_of_find?_eq_some hf
    simp only [Option.map_some'] at h
    cases h
    exact List.mem_map_of_mem _ hm

theorem mapGet_keysOk_pid {m : List (String × Item)} {k : String} {v : Item}
    (hok : KeysOk m) (h : mapGet m k = some v) : v.productId = k := by
  unfold mapGet at h
  cases hf : m.find? (fun p => p.1 == k) with
  | none => rw [hf] at h; simp at h
  | some pr =>
    rw [hf] at h
    have hm := List.mem_of_find?_eq_some hf
    have hp := List.find?_some hf
    simp only [Option.map_some'] at h
    cases h
    rw [hok.2 pr hm]
    simpa using hp

theorem mapSet_keysOk {m : List (String × Item)} {k : String} {v : Item}
    (h : KeysOk m) (hv : v.productId = k) : KeysOk (mapSet m k v) := by
  unfold mapSet
  by_cases hany : m.any (fun p => p.1 == k) = true
  · rw [if_pos hany]
    constructor
    · have hkeys : (m.map (fun p => if p.1 == k then (k, v) else p)).map Prod.fst =
          m.map Prod.fst := by
        rw [List.map_map]
        apply List.map_congr_left
        intro p _
        by_cases hp : p.1 = k
        · simp [hp]
        · simp [hp]
      rw [hkeys]
      exact h.1
    · intro p hp
      rw [List.mem_map] at hp
      obtain ⟨p0, hp0, hfp⟩ := hp
      by_cases hc : p0.1 = k
      · rw [if_pos (by simpa using hc)] at hfp
        rw [← hfp]
        exact hv
      · rw [if_neg (by simpa using hc)] at hfp
        rw [← hfp]
        exact h.2 p0 hp0
  · rw [Bool.not_eq_true] at hany
    rw [if_neg (by simp [hany])]
    have hknot : k ∉ m.map Prod.fst := by
      rw [List.any_eq_false] at hany
      intro hk
      rw [List.mem_map] at hk
      obtain ⟨p, hpmem, hpk⟩ := hk
      have hfalse := hany p hpmem
      simp [hpk] at hfalse
    constructor
    · rw [List.map_append, List.nodup_append]
      exact ⟨h.1, by simp, by
        intro x hx hx2
        simp only [List.map_cons, List.map_nil, List.mem_singleton] at hx2
        subst hx2
        exact hknot hx⟩
    · intro p hp
      rw [List.mem_append] at hp
      rcases hp with hp | hp
      · exact h.2 p hp
      · simp only [List.mem_singleton] at hp
        subst hp
        exact hv

theorem mergeStep_keysOk {m : List (String × Item)} {c : Item}
    (h : KeysOk m) : KeysOk (mergeStep m c) := by
  unfold mergeStep
  cases hg : mapGet m c.productId with
  | some ex =>
    apply mapSet_keysOk h
    show ex.productId = c.productId
    exact mapGet_keysOk_pid h hg
  | none =>
    exact mapSet_keysOk h rfl

theorem foldl_mergeStep_keysOk {l : List Item} {m : List (String × Item)}
    (h : KeysOk m) : KeysOk (l.foldl mergeStep m) := by
  induction l generalizing m with
  | nil => exact h
  | cons a t ih => exact ih (mergeStep_keysOk h)

theorem foldl_mapSet_keysOk {l : List Item} {m : List (String × Item)}
    (h : KeysOk m) :
    KeysOk (l.foldl (fun m i => mapSet m i.productId i) m) := by
  induction l generalizing m with
  | nil => exact h
  | cons a t ih => exact ih (mapSet_keysOk h rfl)
theorem mapSet_append_of_not_mem {m : List (String × Item)} {k : String}
    {v : Item} (h : k ∉ m.map Prod.fst) : mapSet m k v = m ++ [(k, v)] := by
  apply mapSet_append_of_not_any
  rw [List.any_eq_false]
  intro p hp hbeq
  exact h (List.mem_map.2 ⟨p, hp, by simpa using hbeq⟩)

theorem foldl_mapSet_eq {l : List Item} : ∀ {acc : List (String × Item)},
    (pids l).Nodup → (∀ i ∈ l, i.productId ∉ acc.map Prod.fst) →
    l.foldl (fun m i => mapSet m i.productId i) acc =
      acc ++ l.map (fun i => (i.productId, i)) := by
  induction l with
  | nil =>
    intro acc _ _
    simp
  | cons a t ih =>
    intro acc hnd hdisj
    simp only [pids, List.map_cons, List.nodup_cons] at hnd
    have hdisj' : ∀ i ∈ t, i.productId ∉ (acc ++ [(a.productId, a)]).map Prod.fst := by
      intro i hi
      rw [List.map_append, List.mem_append]
      rintro (hin | hin)
      · exact hdisj i (by simp [hi]) hin
      · simp only [List.map_cons, List.map_nil, List.mem_singleton] at hin
        exact hnd.1 (hin ▸ List.mem_map_of_mem _ hi)
    rw [List.foldl_cons, mapSet_append_of_not_mem (hdisj a (by simp)),
      ih hnd.2 hdisj']
    simp

theorem mergeStep_get_ne {m : List (String × Item)} {c : Item} {k : String}
    (h : k ≠ c.productId) : mapGet (mergeStep m c) k = mapGet m k := by
  unfold mergeStep
  cases hg : mapGet m c.productId with
  | some ex => exact mapGet_mapSet_ne h
  | none => exact mapGet_mapSet_ne h

theorem foldl_mergeStep_get_not_mem {l : List Item} {m : List (String × Item)}
    {k : String} (h : k ∉ pids l) :
    mapGet (l.foldl mergeStep m) k = mapGet m k := by
  induction l generalizing m with
  | nil => rfl
  | cons a t ih =>
    have hk : k ≠ a.productId := by
      intro he
      exact h (by simp [pids, he])
    have ht : k ∉ pids t := by
      intro hm
      exact h (by simp [pids] at hm ⊢; tauto)
    rw [List.foldl_cons, ih ht, mergeStep_get_ne hk]

theorem foldl_mergeStep_get_some {l : List Item} {m : List (String × Item)}
    {c ex : Item} (hnd : (pids l).Nodup) (hc : c ∈ l)
    (hg : mapGet m c.productId = some ex) :
    mapGet (l.foldl mergeStep m) c.productId =
      some { ex with quantity := max ex.quantity c.quantity } := by
  induction l generalizing m with
  | nil => cases hc
  | cons a t ih =>
    simp only [pids, List.map_cons, List.nodup_cons] at hnd
    rcases List.mem_cons.1 hc with rfl | hct
    · have hstep : mergeStep m c =
          mapSet m c.productId { ex with quantity := max ex.quantity c.quantity } := by
        unfold mergeStep
        rw [hg]
      have hnotm : c.productId ∉ pids t := by
        simpa [pids] using hnd.1
      rw [List.foldl_cons, hstep, foldl_mergeStep_get_not_mem hnotm]
      exact mapGet_mapSet_self m c.productId _
    · have hne : a.productId ≠ c.productId := by
        intro he
        exact hnd.1 (he ▸ List.mem_map_of_mem _ hct)
      have hg' : mapGet (mergeStep m a) c.productId = some ex := by
        rw [mergeStep_get_ne (Ne.symm hne)]
        exact hg
      rw [List.foldl_cons]
      exact ih hnd.2 hct hg'

theorem foldl_mergeStep_get_none {l : List Item} {m : List (String × Item)}
    {c : Item} (hnd : (pids l).Nodup) (hc : c ∈ l)
    (hg : mapGet m c.productId = none) :
    mapGet (l.foldl mergeStep m) c.productId = some c := by
  induction l generalizing m with
  | nil => cases hc
  | cons a t ih =>
    simp only [pids, List.map_cons, List.nodup_cons] at hnd
    rcases List.mem_cons.1 hc with rfl | hct
    · have hstep : mergeStep m c = mapSet m c.productId c := by
        unfold mergeStep
        rw [hg]
      have hnotm : c.productId ∉ pids t := by
        simpa [pids] using hnd.1
      rw [List.foldl_cons, hstep, foldl_mergeStep_get_not_mem hnotm]
      exact mapGet_mapSet_self m c.productId c
    · have hne : a.productId ≠ c.productId := by
        intro he
        exact hnd.1 (he ▸ List.mem_map_of_mem _ hct)
      have hg' : mapGet (mergeStep m a) c.productId = none := by
        rw [mergeStep_get_ne (Ne.symm hne)]
        exact hg
      rw [List.foldl_cons]
      exact ih hnd.2 hct hg'

theorem mapGet_map_pair_of_mem {l : List Item} {s : Item}
    (hnd : (pids l).Nodup) (hs : s ∈ l) :
    mapGet (l.map (fun i => (i.productId, i))) s.productId = some s := by
  induction l with
  | nil => cases hs
  | cons a t ih =>
    simp only [pids, List.map_cons, List.nodup_cons] at hnd
    rcases List.mem_cons.1 hs with rfl | hst
    · rw [List.map_cons, mapGet_cons_hit (by simp)]
    · have hne : ((a.productId, a).1 == s.productId) = false := by
        simp only [beq_eq_false_iff_ne, ne_eq]
        intro he
        exact hnd.1 (he ▸ List.mem_map_of_mem _ hst)
      rw [List.map_cons, mapGet_cons_miss hne]
      exact ih hnd.2 hst

theorem mapGet_map_pair_of_not_mem {l : List Item} {k : String}
    (h : k ∉ pids l) :
    mapGet (l.map (fun i => (i.productId, i))) k = none := by
  induction l with
  | nil => rfl
  | cons a t ih =>
    have hne : ((a.productId, a).1 == k) = false := by
      simp only [beq_eq_false_iff_ne, ne_eq]
      intro he
      exact h (by simp [pids, he])
    have ht : k ∉ pids t := by
      intro hm
      exact h (by simp [pids] at hm ⊢; tauto)
    rw [List.map_cons, mapGet_cons_miss hne]
    exact ih ht
/-! ## Validated payloads have pairwise-distinct product ids -/

theorem validateItemsLoop_ok_nodup {ids : Option (List String)} :
    ∀ (l : List RawElem) (i : ℕ) (seen : List String) (out : List Item),
    validateItemsLoop ids l i seen = .ok out →
    (pids out).Nodup ∧ ∀ p ∈ pids out, p ∉ seen := by
  intro l
  induction l with
  | nil =>
    intro i seen out h
    simp only [validateItemsLoop] at h
    cases h
    simp [pids]
  | cons x xs ih =>
    intro i seen out h
    simp only [validateItemsLoop] at h
    split at h
    · simp at h
    · rename_i item hv
      split at h
      · simp at h
      · rename_i hseen
        split at h
        · simp at h
        · rename_i rest hloop
          cases h
          obtain ⟨hnd, hsub⟩ := ih (i + 1) (item.productId :: seen) rest hloop
          constructor
          · simp only [pids, List.map_cons, List.nodup_cons]
            exact ⟨fun hmem => hsub item.productId hmem (List.mem_cons_self _ _),
              hnd⟩
          · intro p hp
            simp only [pids, List.map_cons, List.mem_cons] at hp
            rcases hp with rfl | hp
            · exact hseen
            · exact fun hpseen => hsub p hp (List.mem_cons_of_mem _ hpseen)

theorem validateCartItems_ok_nodup {raw : RawItems}
    {ids : Option (List String)} {out : List Item}
    (h : validateCartItems raw ids = .ok out) : (pids out).Nodup := by
  cases raw with
  | notArr => simp [validateCartItems] at h
  | arr l =>
    simp only [validateCartItems] at h
    split at h
    · simp at h
    · exact (validateItemsLoop_ok_nodup l 0 [] out h).1

/-! ## The merge keeps keys distinct -/

theorem pids_values_eq_keys {m : List (String × Item)}
    (h : ∀ p ∈ m, p.2.productId = p.1) :
    pids (m.map (fun p => p.2)) = m.map Prod.fst := by
  unfold pids
  rw [List.map_map]
  exact List.map_congr_left h

theorem pids_mergeSync_nodup (server client : List Item) :
    (pids (mergeSync server client)).Nodup := by
  have hok : KeysOk (client.foldl mergeStep
      (server.foldl (fun m i => mapSet m i.productId i) [])) :=
    foldl_mergeStep_keysOk (foldl_mapSet_keysOk (by simp [KeysOk]))
  unfold mergeSync
  rw [pids_values_eq_keys hok.2]
  exact hok.1

/-! ## C1: the merge takes the maximum quantity and inserts new items -/

/-- C1: for a duplicate-free server item list and a client list accepted by
`validateCartItems`, the merged cart contains, for every product id present
on both sides, the server item with quantity raised to
`max(serverQuantity, clientQuantity)` — never below either side — and every
client item whose product id is absent from the server is inserted as-is. -/
theorem mergeSync_max_spec (validIds : List String) (server client : List Item)
    (raw : RawItems)
    (hS : (pids server).Nodup)
    (hC : validateCartItems raw (some validIds) = .ok client) :
    (∀ s ∈ server, ∀ c ∈ client, s.productId = c.productId →
      { s with quantity := max s.quantity c.quantity } ∈ mergeSync server client ∧
      s.quantity ≤ max s.quantity c.quantity ∧
      c.quantity ≤ max s.quantity c.quantity) ∧
    (∀ c ∈ client, c.productId ∉ pids server → c ∈ mergeSync server client) := by
  have hCnd : (pids client).Nodup := validateCartItems_ok_nodup hC
  have hm0 : server.foldl (fun m i => mapSet m i.productId i) [] =
      server.map (fun i => (i.productId, i)) := by
    simpa using foldl_mapSet_eq hS (by simp)
  constructor
  · intro s hs c hc hpid
    have hg0 : mapGet (server.foldl (fun m i => mapSet m i.productId i) [])
        c.productId = some s := by
      rw [hm0, ← hpid]
      exact mapGet_map_pair_of_mem hS hs
    have hg1 := foldl_mergeStep_get_some hCnd hc hg0
    exact ⟨mapGet_mem_values hg1, le_max_left _ _, le_max_right _ _⟩
  · intro c hc hnot
    have hg0 : mapGet (server.foldl (fun m i => mapSet m i.productId i) [])
        c.productId = none := by
      rw [hm0]
      exact mapGet_map_pair_of_not_mem hnot
    exact mapGet_mem_values (foldl_mergeStep_get_none hCnd hc hg0)

/-- C1 witness: server holds product `1` with quantity 5, the client sends
product `1` with quantity 2 and product `2` with quantity 1; the merge keeps
quantity 5 for product `1` and inserts product `2` as-is. -/
theorem mergeSync_max_spec_witness :
    (∀ s ∈ [serverLaptop5], ∀ c ∈ [laptopItem, phoneItem],
      s.productId = c.productId →
      { s with quantity := max s.quantity c.quantity } ∈
        mergeSync [serverLaptop5] [laptopItem, phoneItem] ∧
      s.quantity ≤ max s.quantity c.quantity ∧
      c.quantity ≤ max s.quantity c.quantity) ∧
    (∀ c ∈ [laptopItem, phoneItem], c.productId ∉ pids [serverLaptop5] →
      c ∈ mergeSync [serverLaptop5] [laptopItem, phoneItem]) :=
  mergeSync_max_spec getValidProductIds [serverLaptop5] [laptopItem, phoneItem]
    (.arr [.obj rawLaptop, .obj rawPhone]) (by decide) (by decide)
/-! ## C2: the cart invariant is preserved by every operation -/

theorem findFirst_none_not_mem {pid : String} {l : List Item}
    (h : findFirst pid l = none) : pid ∉ pids l := by
  rw [findFirst, List.find?_eq_none] at h
  intro hm
  rw [pids, List.mem_map] at hm
  obtain ⟨i, hi, he⟩ := hm
  exact h i hi (by simp [he])

theorem removeFirst_sublist (pid : String) (l : List Item) :
    (removeFirst pid l).Sublist l := by
  induction l with
  | nil => simp [removeFirst]
  | cons a t ih =>
    unfold removeFirst
    by_cases ha : (a.productId == pid) = true
    · rw [if_pos ha]
      exact List.sublist_cons_self a t
    · rw [Bool.not_eq_true] at ha
      rw [if_neg (by simp [ha])]
      exact ih.cons₂ a

theorem pids_nodup_removeFirst {pid : String} {l : List Item}
    (h : (pids l).Nodup) : (pids (removeFirst pid l)).Nodup :=
  h.sublist ((removeFirst_sublist pid l).map _)

theorem pids_nodup_filter {p : Item → Bool} {l : List Item}
    (h : (pids l).Nodup) : (pids (l.filter p)).Nodup :=
  h.sublist ((List.filter_sublist l).map _)

theorem pids_append_one (l : List Item) (it : Item) :
    pids (l ++ [it]) = pids l ++ [it.productId] := by
  simp [pids]

theorem itemsOf_nodup (st : CartState) :
    CartInv st → (pids (match st with | some c => c.items | none => [])).Nodup := by
  cases st with
  | none => intro _; simp [pids]
  | some c => intro h; exact h.2

theorem addHandler_inv {validIds : List String} {st : CartState}
    {raw : RawItem} {now : ℕ} {c' : StoredCart}
    (hInv : CartInv st) (h : addHandler validIds st raw now = .ok c') :
    c'.itemCount = c'.items.length ∧ (pids c'.items).Nodup := by
  have hitems := itemsOf_nodup st hInv
  simp only [addHandler] at h
  split at h
  · simp at h
  · split at h
    · simp at h
    · rename_i pid hpid
      split at h
      · simp at h
      · rename_i qty hqty
        split at h
        · simp at h
        · rename_i pr hpr
          split at h
          · simp at h
          · rename_i nm hnm
            split at h
            · rename_i existing hfind
              split at h
              · simp at h
              · rename_i total htot
                cases h
                refine ⟨rfl, ?_⟩
                show (pids (setFirstQty pid total _)).Nodup
                rw [pids_setFirstQty]
                exact hitems
            · rename_i hfind
              cases h
              refine ⟨rfl, ?_⟩
              show (pids (_ ++ [_])).Nodup
              rw [pids_append_one]
              rw [List.nodup_append]
              refine ⟨hitems, by simp, ?_⟩
              intro x hx hx2
              simp only [List.mem_singleton] at hx2
              subst hx2
              exact findFirst_none_not_mem hfind hx

theorem updateHandler_inv {validIds : List String} {st : CartState}
    {p : JsOpt JsPrim} {q : JsOpt JsNum} {now : ℕ} {c' : StoredCart}
    (hInv : CartInv st) (h : updateHandler validIds st p q now = .ok c') :
    c'.itemCount = c'.items.length ∧ (pids c'.items).Nodup := by
  simp only [updateHandler] at h
  split at h
  · simp at h
  · split at h
    · simp at h
    · rename_i pid hpid
      split at h
      · simp at h
      · split at h
        · simp at h
        · rename_i cart
          split at h
          · simp at h
          · split at h
            · cases h
              exact ⟨rfl, pids_nodup_removeFirst hInv.2⟩
            · split at h
              · simp at h
              · rename_i qn hqn
                cases h
                refine ⟨rfl, ?_⟩
                show (pids (setFirstQty pid qn _)).Nodup
                rw [pids_setFirstQty]
                exact hInv.2

theorem removeHandler_inv {validIds : List String} {st : CartState}
    {p : String} {now : ℕ} {c' : StoredCart}
    (hInv : CartInv st) (h : removeHandler validIds st p now = .ok c') :
    c'.itemCount = c'.items.length ∧ (pids c'.items).Nodup := by
  simp only [removeHandler] at h
  split at h
  · simp at h
  · split at h
    · simp at h
    · cases h
      exact ⟨rfl, pids_nodup_filter hInv.2⟩

theorem clearHandler_inv {st : CartState} {now : ℕ} {c' : StoredCart}
    (h : clearHandler st now = .ok c') :
    c'.itemCount = c'.items.length ∧ (pids c'.items).Nodup := by
  simp only [clearHandler] at h
  cases h
  exact ⟨rfl, by simp [pids, saveCart]⟩

theorem syncHandler_inv {validIds : List String} {st : CartState}
    {raw : RawItems} {now : ℕ} {c' : StoredCart}
    (h : syncHandler validIds st raw now = .ok c') :
    c'.itemCount = c'.items.length ∧ (pids c'.items).Nodup := by
  simp only [syncHandler] at h
  split at h
  · simp at h
  · cases h
    exact ⟨rfl, pids_mergeSync_nodup _ _⟩

theorem applyOp_inv {validIds : List String} {now : ℕ} {st : CartState}
    {op : Op} (h : CartInv st) : CartInv (applyOp validIds now st op) := by
  cases op with
  | add raw =>
    simp only [applyOp]
    cases hr : addHandler validIds st raw now with
    | error e => simpa [stepSt] using h
    | ok c' =>
      show CartInv (some c')
      exact addHandler_inv h hr
  | update p q =>
    simp only [applyOp]
    cases hr : updateHandler validIds st p q now with
    | error e => simpa [stepSt] using h
    | ok c' =>
      show CartInv (some c')
      exact updateHandler_inv h hr
  | remove p =>
    simp only [applyOp]
    cases hr : removeHandler validIds st p now with
    | error e => simpa [stepSt] using h
    | ok c' =>
      show CartInv (some c')
      exact removeHandler_inv h hr
  | clear =>
    simp only [applyOp]
    cases hr : clearHandler st now with
    | error e => simpa [stepSt] using h
    | ok c' =>
      show CartInv (some c')
      exact clearHandler_inv hr
  | sync raw =>
    simp only [applyOp]
    cases hr : syncHandler validIds st raw now with
    | error e => simpa [stepSt] using h
    | ok c' =>
      show CartInv (some c')
      exact syncHandler_inv hr

/-- C2: starting from any state satisfying the cart invariant (in particular
the absent cart), after any finite sequence of operations the stored
`itemCount` equals the number of line items and no two stored items share a
product id.  Failed operations leave the state unchanged, so the invariant
covers exactly the successful ones. -/
theorem cart_invariant_preserved (validIds : List String) (st : CartState)
    (ops : List (ℕ × Op)) (h : CartInv st) :
    CartInv (applyOps validIds st ops) := by
  induction ops generalizing st with
  | nil => exact h
  | cons p t ih =>
    show CartInv (applyOps validIds (applyOp validIds p.1 st p.2) t)
    exact ih _ (applyOp_inv h)

/-- C2 witness: an add, a sync, an update and a remove applied from the empty
state keep the invariant. -/
theorem cart_invariant_preserved_witness :
    CartInv (applyOps getValidProductIds none
      [(0, .add rawLaptop), (1, .sync (.arr [.obj rawPhone])),
       (2, .update (.val (.str "1")) (.val (.finite 7))), (3, .remove "2")]) :=
  cart_invariant_preserved getValidProductIds none _ trivial
/-! ## C4: sync is idempotent -/

theorem mapSet_get_self {m : List (String × Item)} {k : String} {v : Item}
    (hnd : (m.map Prod.fst).Nodup) (hg : mapGet m k = some v) :
    mapSet m k v = m := by
  induction m with
  | nil => simp [mapGet] at hg
  | cons a t ih =>
    simp only [List.map_cons, List.nodup_cons] at hnd
    by_cases ha : (a.1 == k) = true
    · have hk : a.1 = k := by simpa using ha
      rw [mapGet_cons_hit ha] at hg
      have hv : v = a.2 := by
        cases hg
        rfl
      rw [mapSet_cons_hit ha, hv]
      have hpair : (k, a.2) = a := by
        rw [← hk]
      have htail : t.map (fun p => if p.1 == k then (k, a.2) else p) = t := by
        conv_rhs => rw [← List.map_id t]
        apply List.map_congr_left
        intro p hp
        have hne : ¬ p.1 = k := by
          intro he
          apply hnd.1
          rw [hk, ← he]
          exact List.mem_map_of_mem Prod.fst hp
        simp [hne]
      rw [htail, hpair]
    · rw [Bool.not_eq_true] at ha
      rw [mapGet_cons_miss ha] at hg
      rw [mapSet_cons_miss ha, ih hnd.2 hg]

theorem foldl_mergeStep_fixed {l : List Item} {m : List (String × Item)}
    (hnd : (m.map Prod.fst).Nodup)
    (h : ∀ c ∈ l, ∃ ex, mapGet m c.productId = some ex ∧
      c.quantity ≤ ex.quantity) :
    l.foldl mergeStep m = m := by
  induction l with
  | nil => rfl
  | cons a t ih =>
    obtain ⟨ex, hex, hle⟩ := h a (List.mem_cons_self _ _)
    have hstep : mergeStep m a = m := by
      unfold mergeStep
      rw [hex]
      show mapSet m a.productId { ex with quantity := max ex.quantity a.quantity } = m
      have heq : { ex with quantity := max ex.quantity a.quantity } = ex := by
        rw [max_eq_left hle]
      rw [heq]
      exact mapSet_get_self hnd hex
    rw [List.foldl_cons, hstep]
    exact ih (fun c hc => h c (List.mem_cons_of_mem _ hc))

theorem map_pair_values {m : List (String × Item)} (h : KeysOk m) :
    (m.map (fun p => p.2)).map (fun i => (i.productId, i)) = m := by
  rw [List.map_map]
  conv_rhs => rw [← List.map_id m]
  apply List.map_congr_left
  intro p hp
  show (p.2.productId, p.2) = p
  rw [h.2 p hp]

theorem foldl_mergeStep_ge {l : List Item} {m : List (String × Item)}
    (hnd : (pids l).Nodup) :
    ∀ c ∈ l, ∃ ex, mapGet (l.foldl mergeStep m) c.productId = some ex ∧
      c.quantity ≤ ex.quantity := by
  intro c hc
  cases hg : mapGet m c.productId with
  | some ex0 =>
    exact ⟨_, foldl_mergeStep_get_some hnd hc hg, le_max_right _ _⟩
  | none =>
    exact ⟨c, foldl_mergeStep_get_none hnd hc hg, le_refl _⟩

theorem mergeSync_self (server client : List Item)
    (hC : (pids client).Nodup) :
    mergeSync (mergeSync server client) client = mergeSync server client := by
  have hok : KeysOk (client.foldl mergeStep
      (server.foldl (fun m i => mapSet m i.productId i) [])) :=
    foldl_mergeStep_keysOk (foldl_mapSet_keysOk (by simp [KeysOk]))
  have hnd1 := pids_mergeSync_nodup server client
  show (client.foldl mergeStep
      ((mergeSync server client).foldl (fun m i => mapSet m i.productId i)
        [])).map (fun p => p.2) = mergeSync server client
  rw [show (mergeSync server client).foldl (fun m i => mapSet m i.productId i)
      [] = (mergeSync server client).map (fun i => (i.productId, i)) from by
    simpa using foldl_mapSet_eq hnd1 (by simp)]
  rw [show (mergeSync server client).map (fun i => (i.productId, i)) =
      client.foldl mergeStep
        (server.foldl (fun m i => mapSet m i.productId i) []) from
    map_pair_values hok]
  rw [foldl_mergeStep_fixed hok.1 (foldl_mergeStep_ge hC)]
  rfl

theorem sync_ok_state {validIds : List String} {raw : RawItems}
    {sane : List Item}
    (hval : validateCartItems raw (some validIds) = .ok sane)
    (st : CartState) (now : ℕ) :
    syncHandler validIds st raw now = .ok (saveCart st now
      (mergeSync (match st with | some c => c.items | none => []) sane)) := by
  simp only [syncHandler]
  rw [hval]

theorem applyOp_sync_idem (validIds : List String) (now : ℕ) (st : CartState)
    (raw : RawItems) :
    applyOp validIds now (applyOp validIds now st (.sync raw)) (.sync raw) =
      applyOp validIds now st (.sync raw) := by
  cases hval : validateCartItems raw (some validIds) with
  | error e =>
    have h1 : syncHandler validIds st raw now = .error e := by
      simp only [syncHandler]
      rw [hval]
    simp [applyOp, stepSt, h1]
  | ok sane =>
    have hnd := validateCartItems_ok_nodup hval
    cases st with
    | none =>
      have h1 := sync_ok_state hval none now
      have hstate1 : applyOp validIds now none (.sync raw) =
          some (saveCart none now (mergeSync [] sane)) := by
        simp [applyOp, stepSt, h1]
      rw [hstate1]
      have h2 : syncHandler validIds
          (some (saveCart none now (mergeSync [] sane))) raw now =
          .ok (saveCart none now (mergeSync [] sane)) := by
        rw [sync_ok_state hval (some (saveCart none now (mergeSync [] sane))) now]
        show Except.ok (saveCart (some (saveCart none now (mergeSync [] sane)))
          now (mergeSync (mergeSync [] sane) sane)) = _
        rw [mergeSync_self [] sane hnd]
        rfl
      simp [applyOp, stepSt, h2]
    | some cart =>
      have h1 := sync_ok_state hval (some cart) now
      have hstate1 : applyOp validIds now (some cart) (.sync raw) =
          some (saveCart (some cart) now (mergeSync cart.items sane)) := by
        simp [applyOp, stepSt, h1]
      rw [hstate1]
      have h2 : syncHandler validIds
          (some (saveCart (some cart) now (mergeSync cart.items sane))) raw now =
          .ok (saveCart (some cart) now (mergeSync cart.items sane)) := by
        rw [sync_ok_state hval
          (some (saveCart (some cart) now (mergeSync cart.items sane))) now]
        show Except.ok (saveCart
          (some (saveCart (some cart) now (mergeSync cart.items sane)))
          now (mergeSync (mergeSync cart.items sane) sane)) = _
        rw [mergeSync_self cart.items sane hnd]
        rfl
      simp [applyOp, stepSt, h2]

/-- C4: syncing the same raw item list twice in succession leaves exactly the
state a single sync produces — for every server cart state, including the
case where validation rejects the payload (both runs then change nothing). -/
theorem sync_idempotent (validIds : List String) (now : ℕ) (st : CartState)
    (raw : RawItems) :
    applyOp validIds now (applyOp validIds now st (.sync raw)) (.sync raw) =
      applyOp validIds now st (.sync raw) :=
  applyOp_sync_idem validIds now st raw
/-! ## C3: all operations except `add` are idempotent -/

theorem setFirstQty_idem (pid : String) (q : ℤ) (l : List Item) :
    setFirstQty pid q (setFirstQty pid q l) = setFirstQty pid q l := by
  induction l with
  | nil => rfl
  | cons a t ih =>
    by_cases ha : (a.productId == pid) = true
    · have ha' : (({ a with quantity := q } : Item).productId == pid) = true := ha
      simp only [setFirstQty, if_pos ha, if_pos ha']
    · rw [Bool.not_eq_true] at ha
      have ha2 : ¬((a.productId == pid) = true) := by simp [ha]
      simp only [setFirstQty, if_neg ha2]
      rw [ih]

theorem filter_pid_idem (p : Item → Bool) (l : List Item) :
    (l.filter p).filter p = l.filter p := by
  apply List.filter_eq_self.mpr
  intro a ha
  exact (List.mem_filter.1 ha).2

/-- C3 amended: with a well-formed stored cart, `update`, `remove`, `clear`
and `sync` are idempotent with respect to the final stored state given the
same logical input; `add` is excluded — it increments an existing item's
quantity, so repeating it changes the state again
(see the counterexample). -/
theorem ops_idempotent_except_add (validIds : List String) (now : ℕ)
    (st : CartState) (hInv : CartInv st) :
    (∀ (p : JsOpt JsPrim) (q : JsOpt JsNum),
      applyOp validIds now (applyOp validIds now st (.update p q))
          (.update p q) =
        applyOp validIds now st (.update p q)) ∧
    (∀ pid : String,
      applyOp validIds now (applyOp validIds now st (.remove pid))
          (.remove pid) =
        applyOp validIds now st (.remove pid)) ∧
    (applyOp validIds now (applyOp validIds now st .clear) .clear =
      applyOp validIds now st .clear) ∧
    (∀ raw : RawItems,
      applyOp validIds now (applyOp validIds now st (.sync raw)) (.sync raw) =
        applyOp validIds now st (.sync raw)) := by
  refine ⟨?_, ?_, ?_, fun raw => applyOp_sync_idem validIds now st raw⟩
  · intro p q
    cases hr : updateHandler validIds st p q now with
    | error e => simp [applyOp, stepSt, hr]
    | ok c1 =>
      have hst1 : applyOp validIds now st (.update p q) = some c1 := by
        simp [applyOp, stepSt, hr]
      rw [hst1]
      simp only [updateHandler] at hr
      split at hr
      · simp at hr
      · rename_i hguard
        split at hr
        · simp at hr
        · rename_i pid hpid
          split at hr
          · simp at hr
          · rename_i hlt
            split at hr
            · simp at hr
            · rename_i cart
              split at hr
              · simp at hr
              · rename_i hcont
                split at hr
                · rename_i hzq
                  cases hr
                  have hnot : pid ∉ pids (removeFirst pid cart.items) :=
                    removeFirst_not_mem hInv.2
                  have hcont2 : ¬ containsPid pid
                      (removeFirst pid cart.items) = true :=
                    fun hc => hnot ((containsPid_iff _ _).1 hc)
                  have h2 : updateHandler validIds
                      (some (saveCart (some cart) now
                        (removeFirst pid cart.items))) p q now =
                      .error "Item not found in cart" := by
                    simp only [updateHandler, hpid, saveCart]
                    rw [if_neg hguard, if_neg hlt]
                    rw [if_pos (show (!containsPid pid
                      (removeFirst pid cart.items)) = true by simp [hcont2])]
                  simp [applyOp, stepSt, h2]
                · rename_i hzq
                  split at hr
                  · simp at hr
                  · rename_i qn hqn
                    cases hr
                    have hqmem : containsPid pid cart.items = true := by
                      simpa using hcont
                    have hcont2 : containsPid pid
                        (setFirstQty pid qn cart.items) = true := by
                      apply (containsPid_iff _ _).2
                      rw [pids_setFirstQty]
                      exact (containsPid_iff _ _).1 hqmem
                    have h2 : updateHandler validIds
                        (some (saveCart (some cart) now
                          (setFirstQty pid qn cart.items))) p q now =
                        .ok (saveCart (some cart) now
                          (setFirstQty pid qn cart.items)) := by
                      simp only [updateHandler, hpid, hqn, saveCart]
                      rw [if_neg hguard, if_neg hlt]
                      rw [if_neg (show ¬ (!containsPid pid
                        (setFirstQty pid qn cart.items)) = true by
                          simp [hcont2])]
                      rw [if_neg hzq]
                      rw [setFirstQty_idem]
                    simp [applyOp, stepSt, h2]
  · intro pid
    cases hr : removeHandler validIds st pid now with
    | error e => simp [applyOp, stepSt, hr]
    | ok c1 =>
      have hst1 : applyOp validIds now st (.remove pid) = some c1 := by
        simp [applyOp, stepSt, hr]
      rw [hst1]
      simp only [removeHandler] at hr
      split at hr
      · simp at hr
      · rename_i sanitized hpid
        split at hr
        · simp at hr
        · rename_i cart
          cases hr
          have h2 : removeHandler validIds
              (some (saveCart (some cart) now
                (cart.items.filter (fun i => !(i.productId == sanitized)))))
              pid now =
              .ok (saveCart (some cart) now
                (cart.items.filter (fun i => !(i.productId == sanitized)))) := by
            simp only [removeHandler, hpid, saveCart]
            rw [filter_pid_idem]
          simp [applyOp, stepSt, h2]
  · have h1 : applyOp validIds now st .clear = some (saveCart st now []) := by
      simp [applyOp, stepSt, clearHandler]
    rw [h1]
    have h2 : clearHandler (some (saveCart st now [])) now =
        .ok (saveCart st now []) := by
      simp only [clearHandler]
      rfl
    simp [applyOp, stepSt, h2]

/-- C3 amended witness: the idempotence conjunction at a concrete two-item
cart. -/
theorem ops_idempotent_except_add_witness :
    (∀ (p : JsOpt JsPrim) (q : JsOpt JsNum),
      applyOp getValidProductIds 9
          (applyOp getValidProductIds 9 (some cartBoth) (.update p q))
          (.update p q) =
        applyOp getValidProductIds 9 (some cartBoth) (.update p q)) ∧
    (∀ pid : String,
      applyOp getValidProductIds 9
          (applyOp getValidProductIds 9 (some cartBoth) (.remove pid))
          (.remove pid) =
        applyOp getValidProductIds 9 (some cartBoth) (.remove pid)) ∧
    (applyOp getValidProductIds 9
        (applyOp getValidProductIds 9 (some cartBoth) .clear) .clear =
      applyOp getValidProductIds 9 (some cartBoth) .clear) ∧
    (∀ raw : RawItems,
      applyOp getValidProductIds 9
          (applyOp getValidProductIds 9 (some cartBoth) (.sync raw))
          (.sync raw) =
        applyOp getValidProductIds 9 (some cartBoth) (.sync raw)) :=
  ops_idempotent_except_add getValidProductIds 9 (some cartBoth)
    ⟨by decide, by decide⟩
/-! ## C9 amended: add and sync agree whenever the image field is benign -/

theorem validateProductName_ok_shape {x : JsOpt JsPrim} {y : String}
    (h : validateProductName x = .ok y) :
    ∃ s, x = .val (.str s) ∧ s ≠ "" := by
  cases x with
  | undef => simp [validateProductName] at h
  | null => simp [validateProductName] at h
  | val p =>
    cases p with
    | nonStr t => simp [validateProductName] at h
    | str s =>
      refine ⟨s, rfl, ?_⟩
      intro hs
      subst hs
      simp [validateProductName] at h

theorem validatePrice_ok_not_undef {x : JsOpt JsNum} {y : ℚ}
    (h : validatePrice x = .ok y) : isUndefNum x = false := by
  cases x with
  | undef => simp [validatePrice] at h
  | null => rfl
  | val n => rfl

theorem validateImage_eq_addImage {x : JsOpt JsPrim} (h : goodImage x) :
    validateImage x = .ok (addImage x) := by
  cases x with
  | undef => rfl
  | null => rfl
  | val p =>
    cases p with
    | nonStr t => exact absurd h (by simp [goodImage])
    | str s =>
      obtain ⟨hlen, hcase⟩ := h
      have hnotlong : ¬ s.length > 500 := by omega
      rcases hcase with rfl | htrim
      · have h0 : jsTrim "" = "" := by decide
        simp [validateImage, addImage, h0]
      · have hne : s ≠ "" := by
          intro hs
          subst hs
          exact htrim rfl
        simp [validateImage, addImage, hnotlong, htrim, hne, hlen]

/-- C9 amended: whenever the raw item's image is absent or a string of at
most 500 characters that is empty or trims to something non-empty, the add
endpoint and the sync validator accept exactly the same items and produce
the same normalized line item (here stated against an empty cart, where add
appends the freshly normalized item).  Outside this set the two entry points
genuinely diverge, as the counterexample shows. -/
theorem add_sync_agree_on_good_image (validIds : List String) (raw : RawItem)
    (now : ℕ) (himg : goodImage raw.image) :
    (∀ it, validateCartItem (.obj raw) (some validIds) = .ok it →
      addHandler validIds none raw now = .ok (saveCart none now [it])) ∧
    (isErr (validateCartItem (.obj raw) (some validIds)) = true →
      isErr (addHandler validIds none raw now) = true) := by
  have himgC := validateImage_eq_addImage himg
  constructor
  · intro it hit
    simp only [validateCartItem] at hit
    split at hit
    · simp at hit
    · rename_i pid hpid
      split at hit
      · simp at hit
      · rename_i nm hnm
        split at hit
        · simp at hit
        · rename_i pr hpr
          split at hit
          · simp at hit
          · rename_i qty hqty
            split at hit
            · simp at hit
            · rename_i img himgok
              cases hit
              obtain ⟨s, hps, hsne⟩ := validateProductId_ok_shape hpid
              obtain ⟨ns, hns, hnne⟩ := validateProductName_ok_shape hnm
              have hpu := validatePrice_ok_not_undef hpr
              have hguard : (!isTruthyPrim raw.productId ||
                  !isTruthyPrim raw.name || isUndefNum raw.price) = false := by
                rw [hps, hns, hpu]
                simp [isTruthyPrim, hsne, hnne]
              have himgeq : addImage raw.image = img := by
                rw [himgC] at himgok
                cases himgok
                rfl
              simp only [addHandler, hpid, hqty, hpr, hnm, findFirst,
                List.find?]
              rw [if_neg (by simp [hguard])]
              rw [himgeq]
              rfl
  · intro hverr
    cases haddr : addHandler validIds none raw now with
    | error e => simp [isErr]
    | ok c =>
      exfalso
      simp only [addHandler, findFirst, List.find?] at haddr
      split at haddr
      · simp at haddr
      · split at haddr
        · simp at haddr
        · rename_i pid hpid
          split at haddr
          · simp at haddr
          · rename_i qty hqty
            split at haddr
            · simp at haddr
            · rename_i pr hpr
              split at haddr
              · simp at haddr
              · rename_i nm hnm
                have hv : validateCartItem (.obj raw) (some validIds) =
                    .ok ⟨pid, nm, pr, qty, addImage raw.image⟩ := by
                  simp only [validateCartItem, hpid, hnm, hpr, hqty, himgC]
                rw [hv] at hverr
                simp [isErr] at hverr

/-- C9 amended witness: for the well-formed `rawLaptop` payload both entry
points produce the same stored line item. -/
theorem add_sync_agree_on_good_image_witness :
    (∀ it, validateCartItem (.obj rawLaptop) (some getValidProductIds) = .ok it →
      addHandler getValidProductIds none rawLaptop 4 = .ok (saveCart none 4 [it])) ∧
    (isErr (validateCartItem (.obj rawLaptop) (some getValidProductIds)) = true →
      isErr (addHandler getValidProductIds none rawLaptop 4) = true) :=
  add_sync_agree_on_good_image getValidProductIds rawLaptop 4 trivial
